import Mathlib

/-
Verification of the security policy layer of the troubleshooting MCP server.

The Python source is embedded shallowly:
  * Python strings are modelled as `List Char` (one entry per code point),
    written `Str` below; `str.upper()` / `str.lower()` are modelled
    per-character with `Char.toUpper` / `Char.toLower` (exact on ASCII,
    which is all the rule tables contain).
  * `src/troubleshooting_mcp/tools/environment_inspect.py`:
    `SENSITIVE_KEYWORDS`, `_is_sensitive_variable`, and the disclosure /
    markdown-rendering of variable values.
  * `src/troubleshooting_mcp/models.py`: `SafeCommandInput.validate_command`
    (allowlist) and `SafeCommandInput.validate_security_args` (the `ip`
    object allowlist and `-b` flag check).
  * `src/troubleshooting_mcp/tools/safe_command.py`: `validate_safe_args`
    (per-command keyword blocklists for `ip`, `ifconfig`, `hostname`).
  * `src/troubleshooting_mcp/utils.py`: `check_character_limit`.
  * `src/troubleshooting_mcp/constants.py`: `SAFE_COMMANDS`,
    `CHARACTER_LIMIT`, `ARGUMENT_BLOCKLIST`.
Raised `ValueError`s are modelled as rejection values of an explicit
`Decision` type; the rejection taxonomy (UnknownCommand / BlockedFlag /
BlockedObject / BlockedKeyword) follows the specification's naming for the
corresponding `raise` sites in the source.
-/

/-- Python strings, modelled as lists of code points. -/
abbrev Str := List Char

/-! ## Definitions

### Environment-variable sensitivity classifier
(`tools/environment_inspect.py`) -/

/-- From `environment_inspect.py`: the fixed keyword set
`SENSITIVE_KEYWORDS` against which underscore-delimited name parts are
compared. -/
def SENSITIVE_KEYWORDS : List Str :=
  ["KEY", "SECRET", "PASSWORD", "TOKEN", "AUTH", "CREDENTIAL", "PRIVATE",
   "CERTIFICATE", "SIGNATURE"].map String.toList

/-- Python's `s.split("_")`: split at every underscore, keeping empty
parts, so that `"".split("_") == [""]` and `"A__B".split("_") ==
["A", "", "B"]`. -/
def splitOnUnderscore : Str → List Str
  | [] => [[]]
  | c :: cs =>
    if c = '_' then [] :: splitOnUnderscore cs
    else
      match splitOnUnderscore cs with
      | [] => [[c]]
      | p :: ps => (c :: p) :: ps

/-- Python's `str.upper`, per character. -/
def upperStr (s : Str) : Str := s.map Char.toUpper

/-- Python's `str.lower`, per character. -/
def lowerStr (s : Str) : Str := s.map Char.toLower

/-- From `environment_inspect.py`, `_is_sensitive_variable`:
`parts = var_name.upper().split("_")`, then
`any(part in SENSITIVE_KEYWORDS for part in parts)`. -/
def is_sensitive_variable (var_name : Str) : Bool :=
  (splitOnUnderscore (upperStr var_name)).any
    (fun part => SENSITIVE_KEYWORDS.contains part)

/-! ### Command allowlist and rule tables (`constants.py`, `models.py`,
`tools/safe_command.py`) -/

/-- From `constants.py`: the whitelist `SAFE_COMMANDS` (a Python set,
modelled as a list; only membership is ever used). -/
def SAFE_COMMANDS : List Str :=
  ["ping", "traceroute", "nslookup", "dig", "netstat", "ss", "ip",
   "ifconfig", "df", "du", "free", "uptime", "uname", "lsblk", "lsof",
   "whoami", "hostname"].map String.toList

/-- From `constants.py`: `ARGUMENT_BLOCKLIST`.  This table is declared in
the source but is never consulted by any code path; it is embedded here so
that the divergence can be stated. -/
def ARGUMENT_BLOCKLIST : List (Str × List Str) :=
  [("dig".toList, ["-f"].map String.toList),
   ("ip".toList, ["-b", "-batch"].map String.toList),
   ("ss".toList, ["-D", "--dump", "-F", "--filter"].map String.toList),
   ("ping".toList, ["-f", "-i"].map String.toList)]

/-- From `models.py`, `validate_security_args`: the `ALLOWED_IP_OBJECTS`
set. -/
def ALLOWED_IP_OBJECTS : List Str :=
  ["addr", "address", "a", "route", "r", "link", "l", "neighbor", "neigh",
   "n", "maddress", "maddr", "m"].map String.toList

/-- From `tools/safe_command.py`, `validate_safe_args`: the
`dangerous_keywords` set for `ip`. -/
def IP_DANGEROUS_KEYWORDS : List Str :=
  ["set", "add", "del", "delete", "change", "replace", "flush", "exec",
   "tap", "tun", "netns"].map String.toList

/-- From `tools/safe_command.py`, `validate_safe_args`: the
`dangerous_keywords` set for `ifconfig`. -/
def IFCONFIG_DANGEROUS_KEYWORDS : List Str :=
  ["up", "down", "add", "del", "metric", "mtu", "netmask", "broadcast",
   "pointopoint", "arp", "promisc"].map String.toList

/-- Policy decision for one request.  Python raises `ValueError` (in the
pydantic validators) or returns an error string (`validate_safe_args`);
both are modelled as reject values, tagged with the specification's
rejection taxonomy and the offending token (`rejectUnknownCommand`
carries the command enumeration from the `validate_command` message). -/
inductive Decision where
  | accept
  | rejectUnknownCommand (allowed : List Str)
  | rejectBlockedFlag (tok : Str)
  | rejectBlockedObject (tok : Str)
  | rejectBlockedKeyword (tok : Str)
deriving DecidableEq

/-- Lexicographic comparison by code point, as Python compares strings. -/
def strLe : Str → Str → Bool
  | [], _ => true
  | _ :: _, [] => false
  | c :: cs, d :: ds => if c = d then strLe cs ds else decide (c < d)

/-- Insert into a sorted list (helper for `sortStrs`). -/
def insortStr (s : Str) : List Str → List Str
  | [] => [s]
  | t :: ts => if strLe s t then s :: t :: ts else t :: insortStr s ts

/-- Insertion sort, modelling Python's `sorted` on strings. -/
def sortStrs (l : List Str) : List Str := l.foldr insortStr []

/-- The enumeration `', '.join(sorted(SAFE_COMMANDS))` carried by the
whitelist rejection message of `validate_command`. -/
def sortedSafeCommands : List Str := sortStrs SAFE_COMMANDS

/-- Python's `str.strip()`: drop whitespace from both ends. -/
def trimStr (s : Str) : Str :=
  ((s.dropWhile Char.isWhitespace).reverse.dropWhile Char.isWhitespace).reverse

/-- From `models.py`, `validate_command`: `cmd = v.strip().lower()`. -/
def normalizeCmd (command : Str) : Str := lowerStr (trimStr command)

/-- From `models.py`, `validate_security_args`, the loop over `args` for
the `ip` command, carrying the `has_object` flag:
flags (tokens starting with `-`) are rejected when their lower-cased form
starts with `-b`; the first non-flag token must be an allowed object; all
later tokens are skipped once an object was recognized. -/
def ipArgScan : List Str → Bool → Option Decision
  | [], _ => none
  | arg :: rest, hasObject =>
    if "-".toList.isPrefixOf arg then
      if "-b".toList.isPrefixOf (lowerStr arg) then
        some (Decision.rejectBlockedFlag arg)
      else ipArgScan rest hasObject
    else if hasObject then ipArgScan rest hasObject
    else if ALLOWED_IP_OBJECTS.contains (lowerStr arg) then ipArgScan rest true
    else some (Decision.rejectBlockedObject arg)

/-- From `models.py`, `SafeCommandInput.validate_security_args`: only the
`ip` command has a model-level argument rule. -/
def validate_security_args (cmd : Str) (args : List Str) : Option Decision :=
  if cmd = "ip".toList then ipArgScan args false else none

/-- From `tools/safe_command.py`, `validate_safe_args`: keyword blocklists
for `ip` and `ifconfig` (case-insensitive whole-token comparison) and the
`hostname` rule rejecting any non-flag argument.  The source returns an
error string mentioning the first offending argument (a fixed message for
`hostname`); the offending token is carried in the decision. -/
def validate_safe_args (command : Str) (args : List Str) : Option Decision :=
  if args.isEmpty then none
  else
    let cmd := lowerStr command
    if cmd = "ip".toList then
      (args.find? (fun a => IP_DANGEROUS_KEYWORDS.contains (lowerStr a))).map
        Decision.rejectBlockedKeyword
    else if cmd = "ifconfig".toList then
      (args.find?
        (fun a => IFCONFIG_DANGEROUS_KEYWORDS.contains (lowerStr a))).map
        Decision.rejectBlockedKeyword
    else if cmd = "hostname".toList then
      (args.find? (fun a => !("-".toList.isPrefixOf a))).map
        Decision.rejectBlockedKeyword
    else none

/-- The full policy evaluation for one request, in source order: the
`validate_command` whitelist check (`models.py`), then
`validate_security_args` (`models.py`, run by pydantic model validation),
then `validate_safe_args` (run by the tool body in `safe_command.py`
immediately before spawning the process).  Tokens are taken as they reach
these validators; execution itself is a collaborator outside this model. -/
def evaluateRequest (command : Str) (args : List Str) : Decision :=
  let cmd := normalizeCmd command
  if SAFE_COMMANDS.contains cmd then
    match validate_security_args cmd args with
    | some d => d
    | none =>
      match validate_safe_args cmd args with
      | some d => d
      | none => Decision.accept
  else Decision.rejectUnknownCommand sortedSafeCommands

/-! ### Environment-variable disclosure (`environment_inspect.py`) and
response size limiting (`utils.py`) -/

/-- From `environment_inspect.py`: the fixed masking string substituted for
values of sensitive variables. -/
def MASK_SENTINEL : Str := "******** (masked for security)".toList

/-- From `environment_inspect.py` (the `env_vars` construction): a
sensitive variable's value is replaced by the sentinel, a public one is
stored as-is. -/
def discloseValue (name value : Str) : Str :=
  if is_sensitive_variable name then MASK_SENTINEL else value

/-- From `environment_inspect.py` (the markdown rendering loop): values
longer than 200 characters are shortened to their first 200 characters
followed by a fixed notice.  The JSON rendering path emits the stored
value unchanged. -/
def renderValue (value : Str) : Str :=
  if 200 < value.length then value.take 200 ++ "... (truncated)".toList
  else value

/-- From `constants.py`: `CHARACTER_LIMIT`. -/
def CHARACTER_LIMIT : Nat := 25000

/-- From `utils.py`, `check_character_limit`: the appended truncation
message, reporting the limit and the original length. -/
def truncationNotice (origLen : Nat) : Str :=
  ("\n\n--- TRUNCATED ---\nResponse exceeded " ++ toString CHARACTER_LIMIT ++
   " characters. Original size: " ++ toString origLen ++
   " characters. Consider using filters or limiting the scope of your query."
  ).toList

/-- From `utils.py`, `check_character_limit`: contents over the limit are
cut to the first `CHARACTER_LIMIT` characters and the notice is appended;
shorter contents are returned as-is. -/
def check_character_limit (content : Str) : Str :=
  if CHARACTER_LIMIT < content.length then
    content.take CHARACTER_LIMIT ++ truncationNotice content.length
  else content

/-- The fixed forbidden character set named by the specification's
ArgumentSanitizer contract: `;` `&` `|` backquote `$` `(` `)` `>` `<`
opening and closing brace, `!`.  This definition follows the
specification's words; no code in the repository implements such a check,
and the set exists here only so that the absence of that behaviour can be
stated.  Backquote and the braces are written by code point (96, 123,
125). -/
def specForbiddenChars : List Char :=
  [';', '&', '|', Char.ofNat 96, '$', '(', ')', '>', '<',
   Char.ofNat 123, Char.ofNat 125, '!']

/-- A content of 25000 `a`s followed by the exact truncation notice for
length 25148; its total length is 25148, and `check_character_limit`
rebuilds it verbatim. -/
def pathologicalContent : Str :=
  List.replicate CHARACTER_LIMIT 'a' ++ truncationNotice 25148

/-! ## Theorems

### Character-level helper lemmas -/

/-- Unfolding fact: packing a valid code point and reading it back is the
identity. -/
theorem Char.ofNatAux_toNat (n : Nat) (h : n.isValidChar) :
    (Char.ofNatAux n h).toNat = n := rfl

/-- Only the underscore upper-cases to an underscore: `Char.toUpper` maps
lower-case ASCII letters into `A`–`Z` and leaves every other character
unchanged. -/
theorem Char.eq_underscore_of_toUpper_eq {c : Char} (h : c.toUpper = '_') :
    c = '_' := by
  unfold Char.toUpper at h
  by_cases hl : c.toNat ≥ 97 ∧ c.toNat ≤ 122
  · exfalso
    rw [if_pos hl] at h
    have hv : (c.toNat - 32).isValidChar := Or.inl (by omega)
    have h2 : (Char.ofNat (c.toNat - 32)).toNat = c.toNat - 32 := by
      rw [Char.ofNat, dif_pos hv]; exact Char.ofNatAux_toNat _ hv
    have h3 : ('_' : Char).toNat = 95 := by decide
    rw [h] at h2
    omega
  · rw [if_neg hl] at h
    exact h

/-- Lower-casing a character twice is the same as lower-casing it once. -/
theorem Char.toLower_toLower (c : Char) : c.toLower.toLower = c.toLower := by
  unfold Char.toLower
  by_cases hu : c.toNat ≥ 65 ∧ c.toNat ≤ 90
  · rw [if_pos hu]
    have hv : (c.toNat + 32).isValidChar := Or.inl (by omega)
    have h2 : (Char.ofNat (c.toNat + 32)).toNat = c.toNat + 32 := by
      rw [Char.ofNat, dif_pos hv]; exact Char.ofNatAux_toNat _ hv
    rw [if_neg (by omega)]
  · rw [if_neg hu, if_neg hu]

/-! ### Lemmas about the classifier -/

theorem splitOnUnderscore_ne_nil (l : Str) : splitOnUnderscore l ≠ [] := by
  cases l with
  | nil => simp [splitOnUnderscore]
  | cons c cs =>
    by_cases hc : c = '_'
    · simp [splitOnUnderscore, hc]
    · cases hs : splitOnUnderscore cs with
      | nil => simp [splitOnUnderscore, hc, hs]
      | cons p ps => simp [splitOnUnderscore, hc, hs]

/-- Upper-casing commutes with splitting on underscores, because `'_'` is a
fixed point of `Char.toUpper` and no other character upper-cases to it. -/
theorem splitOnUnderscore_upperStr :
    ∀ l : Str, splitOnUnderscore (upperStr l) =
      (splitOnUnderscore l).map upperStr
  | [] => rfl
  | c :: cs => by
    by_cases hc : c = '_'
    · subst hc
      have hfix : Char.toUpper '_' = '_' := by decide
      simpa [upperStr, splitOnUnderscore, hfix] using
        splitOnUnderscore_upperStr cs
    · have hcu : Char.toUpper c ≠ '_' :=
        fun h => hc (Char.eq_underscore_of_toUpper_eq h)
      cases hs : splitOnUnderscore cs with
      | nil => exact absurd hs (splitOnUnderscore_ne_nil cs)
      | cons p ps =>
        have hm : splitOnUnderscore (upperStr cs) =
            upperStr p :: ps.map upperStr := by
          rw [splitOnUnderscore_upperStr cs, hs]; rfl
        simp only [upperStr, List.map_cons, splitOnUnderscore]
        rw [if_neg hcu, if_neg hc, hs]
        simp only [upperStr] at hm
        rw [hm]
        rfl

/-! ### Lemmas about the pipeline -/

/-- Lower-casing a string twice equals lower-casing it once. -/
theorem lowerStr_lowerStr (s : Str) : lowerStr (lowerStr s) = lowerStr s := by
  simp only [lowerStr, List.map_map]
  exact List.map_congr_left (fun c _ => Char.toLower_toLower c)

/-- A normalized command is already lower-case. -/
theorem lowerStr_normalizeCmd (c : Str) :
    lowerStr (normalizeCmd c) = normalizeCmd c := by
  unfold normalizeCmd
  exact lowerStr_lowerStr _

/-- With an object already recognized, the scan accepts as long as no flag
token lower-starts with `-b`. -/
theorem ipArgScan_true_eq_none (args : List Str)
    (hflag : ∀ a ∈ args, ['-'] <+: a → ¬ (['-', 'b'] <+: lowerStr a)) :
    ipArgScan args true = none := by
  induction args with
  | nil => rfl
  | cons a rest ih =>
    have hrest : ∀ x ∈ rest, ['-'] <+: x → ¬ (['-', 'b'] <+: lowerStr x) :=
      fun x hx h => hflag x (List.mem_cons_of_mem _ hx) h
    by_cases hp : ['-'] <+: a
    · have hb := hflag a (List.mem_cons_self _ _) hp
      simp [ipArgScan, hp, hb, ih hrest]
    · simp [ipArgScan, hp, ih hrest]

/-- The scan accepts when no flag token lower-starts with `-b` and the
first non-flag token (if any) is an allowed object. -/
theorem ipArgScan_false_eq_none (args : List Str)
    (hflag : ∀ a ∈ args, ['-'] <+: a → ¬ (['-', 'b'] <+: lowerStr a))
    (hobj : ∀ a, args.find? (fun x => !(['-'].isPrefixOf x)) = some a →
      lowerStr a ∈ ALLOWED_IP_OBJECTS) :
    ipArgScan args false = none := by
  induction args with
  | nil => rfl
  | cons a rest ih =>
    have hrest : ∀ x ∈ rest, ['-'] <+: x → ¬ (['-', 'b'] <+: lowerStr x) :=
      fun x hx h => hflag x (List.mem_cons_of_mem _ hx) h
    by_cases hp : ['-'] <+: a
    · have hb := hflag a (List.mem_cons_self _ _) hp
      have hobj' : ∀ x,
          rest.find? (fun x => !(['-'].isPrefixOf x)) = some x →
          lowerStr x ∈ ALLOWED_IP_OBJECTS := by
        intro x hx
        apply hobj
        rw [List.find?_cons_of_neg _ (by simp [hp])]
        exact hx
      simp [ipArgScan, hp, hb, ih hrest hobj']
    · have hpf : ['-'].isPrefixOf a = false := by
        cases hb2 : ['-'].isPrefixOf a with
        | false => rfl
        | true => exact absurd (List.isPrefixOf_iff_prefix.mp hb2) hp
      have hfind : (a :: rest).find? (fun x => !(['-'].isPrefixOf x)) =
          some a := by
        rw [List.find?_cons_of_pos _ (by simp [hpf])]
      have hallow := hobj a hfind
      simp [ipArgScan, hp, hallow, ipArgScan_true_eq_none rest hrest]

theorem evaluateRequest_ifconfig_eq (args : List Str) :
    evaluateRequest "ifconfig".toList args =
      ((args.find?
        (fun a => IFCONFIG_DANGEROUS_KEYWORDS.contains (lowerStr a))).map
        Decision.rejectBlockedKeyword).getD Decision.accept := by
  cases args with
  | nil => decide
  | cons a rest =>
    have h1 : normalizeCmd "ifconfig".toList = "ifconfig".toList := by decide
    have h2 : lowerStr "ifconfig".toList = "ifconfig".toList := by decide
    unfold evaluateRequest validate_security_args validate_safe_args
    rw [h1]
    rw [if_pos (by decide)]
    rw [if_neg (by decide)]
    simp only [List.isEmpty_cons, Bool.false_eq_true, if_false, h2]
    cases hf : (a :: rest).find?
        (fun a => IFCONFIG_DANGEROUS_KEYWORDS.contains (lowerStr a)) with
    | none => simp [hf]
    | some t => simp [hf]

theorem evaluateRequest_hostname_eq (args : List Str) :
    evaluateRequest "hostname".toList args =
      ((args.find? (fun a => !("-".toList.isPrefixOf a))).map
        Decision.rejectBlockedKeyword).getD Decision.accept := by
  cases args with
  | nil => decide
  | cons a rest =>
    have h1 : normalizeCmd "hostname".toList = "hostname".toList := by decide
    have h2 : lowerStr "hostname".toList = "hostname".toList := by decide
    unfold evaluateRequest validate_security_args validate_safe_args
    rw [h1]
    rw [if_pos (by decide)]
    rw [if_neg (by decide)]
    simp only [List.isEmpty_cons, Bool.false_eq_true, if_false, h2]
    cases hf : (a :: rest).find? (fun a => !("-".toList.isPrefixOf a)) with
    | none => simp [hf]
    | some t => simp [hf]

theorem evaluateRequest_ip_eq (args : List Str) :
    evaluateRequest "ip".toList args =
      match ipArgScan args false with
      | some d => d
      | none =>
        ((args.find?
          (fun a => IP_DANGEROUS_KEYWORDS.contains (lowerStr a))).map
          Decision.rejectBlockedKeyword).getD Decision.accept := by
  cases args with
  | nil => decide
  | cons a rest =>
    have h1 : normalizeCmd "ip".toList = "ip".toList := by decide
    have h2 : lowerStr "ip".toList = "ip".toList := by decide
    unfold evaluateRequest validate_security_args validate_safe_args
    rw [h1]
    rw [if_pos (by decide), if_pos rfl]
    cases hscan : ipArgScan (a :: rest) false with
    | some d => simp [hscan]
    | none =>
      simp only [hscan, List.isEmpty_cons, Bool.false_eq_true, if_false, h2]
      cases hf : (a :: rest).find?
          (fun a => IP_DANGEROUS_KEYWORDS.contains (lowerStr a)) with
      | none => simp [hf]
      | some t => simp [hf]

theorem evaluateRequest_eq_accept_of_unruled (command : Str) (args : List Str)
    (hsafe : normalizeCmd command ∈ SAFE_COMMANDS)
    (hip : normalizeCmd command ≠ "ip".toList)
    (hifc : normalizeCmd command ≠ "ifconfig".toList)
    (hhost : normalizeCmd command ≠ "hostname".toList) :
    evaluateRequest command args = Decision.accept := by
  have hip' : normalizeCmd command ≠ ['i', 'p'] := hip
  have hifc' : normalizeCmd command ≠
      ['i', 'f', 'c', 'o', 'n', 'f', 'i', 'g'] := hifc
  have hhost' : normalizeCmd command ≠
      ['h', 'o', 's', 't', 'n', 'a', 'm', 'e'] := hhost
  unfold evaluateRequest validate_security_args validate_safe_args
  simp [lowerStr_normalizeCmd, hsafe, hip', hifc', hhost']

/-- Helper for C7: the `ifconfig` decision is a keyword rejection exactly
when some argument, lower-cased, is in the blocked-keyword set. -/
theorem ifconfigReject_iff (args : List Str) :
    (∃ t, evaluateRequest "ifconfig".toList args =
      Decision.rejectBlockedKeyword t) ↔
    ∃ a ∈ args, lowerStr a ∈ IFCONFIG_DANGEROUS_KEYWORDS := by
  rw [evaluateRequest_ifconfig_eq args]
  cases hf : args.find?
      (fun a => IFCONFIG_DANGEROUS_KEYWORDS.contains (lowerStr a)) with
  | none =>
    rw [List.find?_eq_none] at hf
    simp only [Option.map_none', Option.getD_none]
    constructor
    · rintro ⟨t, ht⟩
      exact absurd ht (by simp)
    · rintro ⟨a, ha, hmem⟩
      exact absurd (by simpa using hmem) (by simpa using hf a ha)
  | some t =>
    simp only [Option.map_some', Option.getD_some]
    constructor
    · rintro ⟨u, _⟩
      exact ⟨t, List.mem_of_find?_eq_some hf,
        by simpa using List.find?_some hf⟩
    · intro _
      exact ⟨t, rfl⟩

/-- Helper for C7: an `ifconfig` request is either accepted or rejected
with the keyword category, never anything else. -/
theorem ifconfigDecision_cases (args : List Str) :
    evaluateRequest "ifconfig".toList args = Decision.accept ∨
    ∃ t, evaluateRequest "ifconfig".toList args =
      Decision.rejectBlockedKeyword t := by
  rw [evaluateRequest_ifconfig_eq args]
  cases hf : args.find?
      (fun a => IFCONFIG_DANGEROUS_KEYWORDS.contains (lowerStr a)) with
  | none => left; simp
  | some t => right; exact ⟨t, by simp⟩

/-- Helper for C7: the `hostname` decision is a keyword rejection exactly
when some argument does not start with a dash. -/
theorem hostnameReject_iff (args : List Str) :
    (∃ t, evaluateRequest "hostname".toList args =
      Decision.rejectBlockedKeyword t) ↔
    ∃ a ∈ args, ¬ (['-'] <+: a) := by
  rw [evaluateRequest_hostname_eq args]
  cases hf : args.find? (fun a => !("-".toList.isPrefixOf a)) with
  | none =>
    rw [List.find?_eq_none] at hf
    simp only [Option.map_none', Option.getD_none]
    constructor
    · rintro ⟨t, ht⟩
      exact absurd ht (by simp)
    · rintro ⟨a, ha, hmem⟩
      exact absurd hmem (by simpa using hf a ha)
  | some t =>
    simp only [Option.map_some', Option.getD_some]
    constructor
    · rintro ⟨u, _⟩
      have hpf : ['-'].isPrefixOf t = false := by
        simpa using List.find?_some hf
      exact ⟨t, List.mem_of_find?_eq_some hf,
        fun hc => by rw [← List.isPrefixOf_iff_prefix] at hc; simp [hc] at hpf⟩
    · intro _
      exact ⟨t, rfl⟩

/-- Helper for C7: a `hostname` request is either accepted or rejected
with the keyword category, never anything else. -/
theorem hostnameDecision_cases (args : List Str) :
    evaluateRequest "hostname".toList args = Decision.accept ∨
    ∃ t, evaluateRequest "hostname".toList args =
      Decision.rejectBlockedKeyword t := by
  rw [evaluateRequest_hostname_eq args]
  cases hf : args.find? (fun a => !("-".toList.isPrefixOf a)) with
  | none => left; simp
  | some t => right; exact ⟨t, by simp⟩

/-! ## Claims -/

/-- C1 (amended): the code applies no forbidden-character check at all.
Every whitelisted command other than `ip`, `ifconfig` and `hostname`
accepts every argument list unconditionally, and the three ruled commands
apply only their token-level rules, which never inspect characters inside
an argument: concretely, arguments containing `;`, `&`, `|` from the
specification's forbidden set pass through `ifconfig`, `ip` and `hostname`
as well. -/
theorem C1_no_forbidden_character_check :
    (∀ (command : Str) (args : List Str),
      normalizeCmd command ∈ SAFE_COMMANDS →
      normalizeCmd command ≠ "ip".toList →
      normalizeCmd command ≠ "ifconfig".toList →
      normalizeCmd command ≠ "hostname".toList →
      evaluateRequest command args = Decision.accept)
    ∧ ';' ∈ specForbiddenChars
    ∧ evaluateRequest "ifconfig".toList [";&|x".toList] = Decision.accept
    ∧ evaluateRequest "ip".toList ["addr".toList, ";x".toList] =
        Decision.accept
    ∧ evaluateRequest "hostname".toList ["-;x".toList] = Decision.accept :=
  ⟨fun command args hsafe hip hifc hhost =>
    evaluateRequest_eq_accept_of_unruled command args hsafe hip hifc hhost,
   by decide, by decide, by decide, by decide⟩

/-- C1 witness: the whitelisted command `dig` with an argument containing
a semicolon is accepted, via the general theorem. -/
theorem C1_no_forbidden_character_check_witness :
    normalizeCmd "dig".toList ∈ SAFE_COMMANDS ∧
    evaluateRequest "dig".toList ["x;y".toList] = Decision.accept :=
  ⟨by decide,
   C1_no_forbidden_character_check.1 "dig".toList ["x;y".toList]
     (by decide) (by decide) (by decide) (by decide)⟩

/-- C1 counterexample: `ping` is whitelisted and the argument
`8.8.8.8;reboot` contains `;` from the forbidden set, yet the decision is
Accept; no rejection of category ForbiddenCharacter exists anywhere in the
code. -/
theorem C1_forbidden_character_counterexample :
    ';' ∈ specForbiddenChars ∧
    ';' ∈ "8.8.8.8;reboot".toList ∧
    evaluateRequest "ping".toList ["8.8.8.8;reboot".toList] =
      Decision.accept := by
  exact ⟨by decide, by decide, by decide⟩

/-- C2 (amended): for `ip`, `[addr, show]` is accepted, `[netns, exec,
sh]` is rejected as BlockedObject, `[-b, file]` is rejected as
BlockedFlag, and `[-br, addr]` is also rejected as BlockedFlag, because
the check blocks every flag whose lower-cased form starts with `-b`,
which catches `-br` as well as `-b` and `-batch`. -/
theorem C2_ip_rule_examples :
    evaluateRequest "ip".toList ["addr".toList, "show".toList] =
      Decision.accept
    ∧ evaluateRequest "ip".toList
        ["netns".toList, "exec".toList, "sh".toList] =
      Decision.rejectBlockedObject "netns".toList
    ∧ evaluateRequest "ip".toList ["-b".toList, "file".toList] =
      Decision.rejectBlockedFlag "-b".toList
    ∧ evaluateRequest "ip".toList ["-br".toList, "addr".toList] =
      Decision.rejectBlockedFlag "-br".toList := by
  exact ⟨by decide, by decide, by decide, by decide⟩

/-- C2 counterexample: `ip [-br, addr]` is not accepted, contrary to the
claim's fourth example; the flag scan of `validate_security_args` matches
the prefix `-b` against `-br`. -/
theorem C2_brief_flag_counterexample :
    evaluateRequest "ip".toList ["-br".toList, "addr".toList] ≠
      Decision.accept := by decide

/-- C3: the prefix-block behaviour the claim describes does not exist in
the code.  `dig [-f, /etc/passwd]`, `dig [-ffile]`, `ping [-f]`,
`ping [-cf]`, `ss [-D, /tmp/pwned.txt]` and `lsof [+D, /]` are all
accepted, even though `-f` is listed for `dig` in `ARGUMENT_BLOCKLIST`;
that table is never consulted, and the repository's own test-suite
(test_safe_command_security.py) expects these requests to be rejected.
The accept-side examples of the claim do hold. -/
theorem C3_prefix_block_missing :
    evaluateRequest "dig".toList ["-f".toList, "/etc/passwd".toList] =
      Decision.accept
    ∧ evaluateRequest "dig".toList ["-ffile".toList] = Decision.accept
    ∧ evaluateRequest "ping".toList ["-f".toList] = Decision.accept
    ∧ evaluateRequest "ping".toList ["-cf".toList] = Decision.accept
    ∧ evaluateRequest "ss".toList ["-D".toList, "/tmp/pwned.txt".toList] =
      Decision.accept
    ∧ evaluateRequest "lsof".toList ["+D".toList, "/".toList] =
      Decision.accept
    ∧ evaluateRequest "dig".toList ["google.com".toList] = Decision.accept
    ∧ evaluateRequest "ping".toList
        ["-c".toList, "4".toList, "google.com".toList] = Decision.accept
    ∧ ("dig".toList, ["-f".toList]) ∈ ARGUMENT_BLOCKLIST := by
  exact ⟨by decide, by decide, by decide, by decide, by decide, by decide,
    by decide, by decide, by decide⟩

/-- C4: a name classifies as Sensitive exactly when one of its
underscore-delimited parts, upper-cased, is a whole-part member of the
keyword set; empty parts never match, the comparison is case-insensitive,
and the classifier is a total function.  The six examples of the claim
hold: API_KEY, MY__SECRET__KEY and Api_Key are Sensitive, while
KEYBOARD_LAYOUT, MONKEY_BUSINESS and AUTHORS are Public. -/
theorem C4_sensitivity_classifier :
    (∀ name : Str, is_sensitive_variable name = true ↔
      ∃ p ∈ splitOnUnderscore name, upperStr p ∈ SENSITIVE_KEYWORDS)
    ∧ ([] : Str) ∉ SENSITIVE_KEYWORDS
    ∧ is_sensitive_variable "API_KEY".toList = true
    ∧ is_sensitive_variable "MY__SECRET__KEY".toList = true
    ∧ is_sensitive_variable "Api_Key".toList = true
    ∧ is_sensitive_variable "KEYBOARD_LAYOUT".toList = false
    ∧ is_sensitive_variable "MONKEY_BUSINESS".toList = false
    ∧ is_sensitive_variable "AUTHORS".toList = false := by
  refine ⟨?_, by decide, by decide, by decide, by decide, by decide,
    by decide, by decide⟩
  intro name
  unfold is_sensitive_variable
  rw [splitOnUnderscore_upperStr]
  simp [List.any_map, Function.comp]

/-- C5 (amended): the object-allowlist validator of `models.py` indeed
stops validating objects after the first recognized one, but the keyword
blocklist of `validate_safe_args` still applies to every token, so an
`ip` request is accepted exactly under three conditions (no flag
lower-starting with `-b`, first non-flag token an allowed object, no
token lower-casing into the mutating-keyword set); in particular
`ip [addr, add, 1.2.3.4/24, dev, eth0]` is rejected as BlockedKeyword on
`add`, while `ip [addr, show, dev, eth0]` is accepted even though `show`,
`dev`, `eth0` are not allowed objects. -/
theorem C5_post_object_parameters :
    (∀ args : List Str,
      (∀ a ∈ args, ['-'] <+: a → ¬ (['-', 'b'] <+: lowerStr a)) →
      (∀ a, args.find? (fun x => !(['-'].isPrefixOf x)) = some a →
        lowerStr a ∈ ALLOWED_IP_OBJECTS) →
      (∀ a ∈ args, lowerStr a ∉ IP_DANGEROUS_KEYWORDS) →
      evaluateRequest "ip".toList args = Decision.accept)
    ∧ evaluateRequest "ip".toList
        ["addr".toList, "add".toList, "1.2.3.4/24".toList, "dev".toList,
         "eth0".toList] = Decision.rejectBlockedKeyword "add".toList
    ∧ evaluateRequest "ip".toList
        ["addr".toList, "show".toList, "dev".toList, "eth0".toList] =
      Decision.accept := by
  refine ⟨?_, by decide, by decide⟩
  intro args hflag hobj hkw
  rw [evaluateRequest_ip_eq]
  rw [ipArgScan_false_eq_none args hflag hobj]
  have hfind : args.find?
      (fun a => IP_DANGEROUS_KEYWORDS.contains (lowerStr a)) = none := by
    rw [List.find?_eq_none]
    intro x hx
    simp [hkw x hx]
  rw [hfind]
  rfl

/-- C5 witness: `ip [route, get, 8.8.8.8]` is accepted via the general
statement, with all three hypotheses discharged concretely. -/
theorem C5_post_object_parameters_witness :
    evaluateRequest "ip".toList
      ["route".toList, "get".toList, "8.8.8.8".toList] =
      Decision.accept := by
  apply C5_post_object_parameters.1
  · decide
  · intro a ha
    have h0 : (["route".toList, "get".toList, "8.8.8.8".toList]).find?
        (fun x => !(['-'].isPrefixOf x)) = some "route".toList := by decide
    rw [h0] at ha
    cases ha
    decide
  · decide

/-- C5 counterexample: `ip [addr, add, 1.2.3.4/24, dev, eth0]` is not
accepted, contrary to the claim: the keyword blocklist rejects `add`. -/
theorem C5_mutating_subverb_counterexample :
    evaluateRequest "ip".toList
      ["addr".toList, "add".toList, "1.2.3.4/24".toList, "dev".toList,
       "eth0".toList] ≠ Decision.accept := by decide

/-- C6: a command whose trimmed, lower-cased form is not in the whitelist
is rejected as UnknownCommand regardless of the arguments, and the
rejection carries the sorted enumeration of the entire allowed set (a
permutation of `SAFE_COMMANDS`). -/
theorem C6_unknown_command_rejected (command : Str) (args : List Str)
    (h : normalizeCmd command ∉ SAFE_COMMANDS) :
    evaluateRequest command args =
      Decision.rejectUnknownCommand sortedSafeCommands ∧
    sortedSafeCommands.Perm SAFE_COMMANDS := by
  constructor
  · unfold evaluateRequest
    simp [h]
  · decide

/-- C6 witness: the command `rm` is not whitelisted and is rejected as
UnknownCommand, with arguments present. -/
theorem C6_unknown_command_rejected_witness :
    normalizeCmd "rm".toList ∉ SAFE_COMMANDS ∧
    evaluateRequest "rm".toList ["-rf".toList, "/".toList] =
      Decision.rejectUnknownCommand sortedSafeCommands :=
  ⟨by decide,
   (C6_unknown_command_rejected "rm".toList ["-rf".toList, "/".toList]
     (by decide)).1⟩

/-- C7: `ifconfig` is rejected as BlockedKeyword exactly when some
argument, lower-cased, is a whole-token member of its blocked-keyword
set, and is otherwise accepted; `hostname` is rejected as BlockedKeyword
exactly when some argument does not start with a dash, and is otherwise
accepted.  The four examples of the claim hold: `ifconfig [eth0, down]`
and `hostname [newname]` are rejected, `ifconfig [-a]` and `hostname []`
are accepted. -/
theorem C7_keyword_block_rules :
    (∀ args : List Str,
      (∃ t, evaluateRequest "ifconfig".toList args =
        Decision.rejectBlockedKeyword t) ↔
      ∃ a ∈ args, lowerStr a ∈ IFCONFIG_DANGEROUS_KEYWORDS)
    ∧ (∀ args : List Str,
        evaluateRequest "ifconfig".toList args = Decision.accept ∨
        ∃ t, evaluateRequest "ifconfig".toList args =
          Decision.rejectBlockedKeyword t)
    ∧ (∀ args : List Str,
        (∃ t, evaluateRequest "hostname".toList args =
          Decision.rejectBlockedKeyword t) ↔
        ∃ a ∈ args, ¬ (['-'] <+: a))
    ∧ (∀ args : List Str,
        evaluateRequest "hostname".toList args = Decision.accept ∨
        ∃ t, evaluateRequest "hostname".toList args =
          Decision.rejectBlockedKeyword t)
    ∧ evaluateRequest "ifconfig".toList ["eth0".toList, "down".toList] =
        Decision.rejectBlockedKeyword "down".toList
    ∧ evaluateRequest "ifconfig".toList ["-a".toList] = Decision.accept
    ∧ evaluateRequest "hostname".toList [] = Decision.accept
    ∧ evaluateRequest "hostname".toList ["newname".toList] =
        Decision.rejectBlockedKeyword "newname".toList :=
  ⟨ifconfigReject_iff, ifconfigDecision_cases, hostnameReject_iff,
   hostnameDecision_cases, by decide, by decide, by decide, by decide⟩

/-- C8 (amended): a sensitive variable's disclosed value is the fixed
sentinel in the stored map and in the markdown rendering (the sentinel is
short enough never to be truncated); a public variable's raw value is
stored unchanged and is rendered unchanged when it is at most 200
characters long — the markdown renderer truncates longer public values,
while the JSON path emits the stored value unchanged. -/
theorem C8_disclosure_masking :
    (∀ name value : Str, is_sensitive_variable name = true →
      discloseValue name value = MASK_SENTINEL ∧
      renderValue (discloseValue name value) = MASK_SENTINEL)
    ∧ (∀ name value : Str, is_sensitive_variable name = false →
      discloseValue name value = value)
    ∧ (∀ name value : Str, is_sensitive_variable name = false →
      value.length ≤ 200 → renderValue (discloseValue name value) = value)
    := by
  refine ⟨?_, ?_, ?_⟩
  · intro name value h
    have h1 : discloseValue name value = MASK_SENTINEL := by
      simp [discloseValue, h]
    exact ⟨h1, by rw [h1]; decide⟩
  · intro name value h
    simp [discloseValue, h]
  · intro name value h hlen
    rw [show discloseValue name value = value from by simp [discloseValue, h]]
    unfold renderValue
    rw [if_neg (by omega)]

/-- C8 witness: the sensitive name API_KEY has its value replaced by the
sentinel. -/
theorem C8_disclosure_masking_witness :
    is_sensitive_variable "API_KEY".toList = true ∧
    discloseValue "API_KEY".toList "abc".toList = MASK_SENTINEL :=
  ⟨by decide,
   (C8_disclosure_masking.1 "API_KEY".toList "abc".toList (by decide)).1⟩

set_option maxRecDepth 4000 in
/-- C8 counterexample: PATH is public, but a 201-character value does not
pass through the markdown rendering unchanged — it is truncated to 200
characters plus a notice. -/
theorem C8_truncation_counterexample :
    is_sensitive_variable "PATH".toList = false ∧
    renderValue (discloseValue "PATH".toList (List.replicate 201 'a')) ≠
      List.replicate 201 'a' := by
  exact ⟨by decide, by decide⟩

/-- C9: the policy evaluation and the sensitivity classification are
deterministic: equal inputs always produce equal decisions and equal
classifications.  (In this embedding both are pure functions of their
arguments and the startup-constant rule tables, mirroring code that
consults only module-level constants and performs no I/O.) -/
theorem C9_determinism (c₁ c₂ : Str) (a₁ a₂ : List Str) (n₁ n₂ : Str)
    (hc : c₁ = c₂) (ha : a₁ = a₂) (hn : n₁ = n₂) :
    evaluateRequest c₁ a₁ = evaluateRequest c₂ a₂ ∧
    is_sensitive_variable n₁ = is_sensitive_variable n₂ := by
  subst hc; subst ha; subst hn
  exact ⟨rfl, rfl⟩

/-- C9 witness: two evaluations of the same concrete request and name
agree. -/
theorem C9_determinism_witness :
    evaluateRequest "ping".toList ["-c".toList] =
      evaluateRequest "ping".toList ["-c".toList] ∧
    is_sensitive_variable "PATH".toList =
      is_sensitive_variable "PATH".toList :=
  C9_determinism _ _ _ _ _ _ rfl rfl rfl

/-- C10 (amended): contents of at most 25000 characters are returned
unchanged; longer contents are returned as their first 25000 characters
followed by the truncation notice reporting the original character count.
(Being returned unchanged is not equivalent to being within the limit:
a longer content that already ends in its own exact truncation notice is
reproduced verbatim, see the counterexample.) -/
theorem C10_character_limit :
    (∀ content : Str, content.length ≤ CHARACTER_LIMIT →
      check_character_limit content = content)
    ∧ (∀ content : Str, CHARACTER_LIMIT < content.length →
      check_character_limit content =
        content.take CHARACTER_LIMIT ++ truncationNotice content.length)
    := by
  constructor
  · intro c h
    unfold check_character_limit
    rw [if_neg (by omega)]
  · intro c h
    unfold check_character_limit
    rw [if_pos h]

/-- C10 witness: a short content is returned unchanged. -/
theorem C10_character_limit_witness :
    check_character_limit "ok".toList = "ok".toList :=
  C10_character_limit.1 "ok".toList (by decide)

set_option maxRecDepth 10000 in
/-- C10 counterexample: a content of length 25148 — 25000 `a`s followed
by the exact truncation notice for length 25148 — is longer than the
limit yet returned equal to itself, so "returned unchanged" does not
imply "length at most 25000". -/
theorem C10_roundtrip_counterexample :
    CHARACTER_LIMIT < pathologicalContent.length ∧
    check_character_limit pathologicalContent = pathologicalContent := by
  have hnl : (truncationNotice 25148).length = 148 := by decide
  have hlen : pathologicalContent.length = 25148 := by
    unfold pathologicalContent
    rw [List.length_append, List.length_replicate, hnl]
    norm_num [CHARACTER_LIMIT]
  constructor
  · rw [hlen]; norm_num [CHARACTER_LIMIT]
  · unfold check_character_limit
    rw [if_pos (by rw [hlen]; norm_num [CHARACTER_LIMIT])]
    rw [hlen]
    unfold pathologicalContent
    rw [List.take_left' (by rw [List.length_replicate])]
